import Mathlib

/-!
# Verification of the inp2json frame-stream decoder

Shallow embedding of `src/inp2json.py`, a converter from MAME INP recordings
to JSON. Byte streams are modelled as `List Nat` (each element one byte,
`0 ≤ b < 256` in every real stream). Python's `BytesIO` read cursor is made
explicit: each reader consumes a prefix of the list and returns the rest.
Diagnostic `print` calls are not modelled except where they affect control
flow or a claim is about them: the stderr error prints of the three
`read_next_frame_*` helpers are exposed as the Boolean "truncated" component
of `iter_inp_payload_t` below, and the basetime timestamp diagnostic of
`parse_header` — whose `datetime.utcfromtimestamp(basetime)` call fails for
large basetimes, between the signature check and the version check — is
modelled by its three failure regions (uncaught `ValueError`, caught
`OSError`, uncaught `OverflowError`; boundaries as on CPython / 64-bit
glibc, verified against the interpreter).

Field-map keys in the reference data are decimal strings in the JSON source;
`check_digital_inputs` converts them with `int(mask, base=10)`. We represent
them directly as the converted natural numbers.
-/

namespace Inp2json

/-- A byte stream: one `Nat` per byte. -/
abbrev Bytes := List Nat

/-- `struct.calcsize("<LQL")`: 4 + 8 + 4 bytes (seconds, attoseconds, curspeed). -/
def FRAME_STRUCT_SIZE : Nat := 16

/-- `struct.calcsize("<LL")`: 4 + 4 bytes (defvalue, digital). -/
def DIGITAL_STRUCT_SIZE : Nat := 8

/-- `struct.calcsize("<LLL?")`: 4 + 4 + 4 + 1 bytes (accum, previous, sensitivity, reverse). -/
def ANALOG_STRUCT_SIZE : Nat := 13

/-- The fixed INP header length `HEADER_BYTES`. -/
def HEADER_BYTES : Nat := 64

/-- Offset of the base-time field in the header (`OFFS_BASETIME`). -/
def OFFS_BASETIME : Nat := 0x08

/-- Width of the base-time field (`BASETIME_BYTES`). -/
def BASETIME_BYTES : Nat := 0x08

/-- The last Unix timestamp `datetime` can represent (9999-12-31 23:59:59
UTC). For larger basetimes that the platform `gmtime` still handles,
`datetime.utcfromtimestamp` raises `ValueError` ("year ... is out of
range"). -/
def DATETIME_MAX_TIMESTAMP : Nat := 253402300799

/-- The last basetime for which `datetime.utcfromtimestamp` raises
`ValueError` rather than `OSError` on CPython with 64-bit glibc (`gmtime`
accepts timestamps up to `tm_year = INT_MAX`, i.e. through the last second
of year 2147485547). Above it and up to `TIME_T_MAX` the call raises
`OSError` (`EOVERFLOW` from `gmtime`). -/
def GMTIME_MAX_TIMESTAMP : Nat := 67768036191676799

/-- The largest value of the platform's signed 64-bit `time_t`;
`datetime.utcfromtimestamp` raises `OverflowError` ("timestamp out of range
for platform time_t") for larger inputs, before calling `gmtime`. -/
def TIME_T_MAX : Nat := 9223372036854775807

/-- The 8-byte magic signature "MAMEINP\0" (`b"MAMEINP\0"` in the source). -/
def MAGIC : Bytes := [77, 65, 77, 69, 73, 78, 80, 0]

/-- Little-endian decoding of a byte list, as done by `struct.unpack` /
`int.from_bytes(..., "little")`. -/
def leNat : Bytes → Nat
  | [] => 0
  | b :: bs => b + 256 * leNat bs

/-- Metadata of one field of one input port, from the reference database:
`{analog: bool, type: string, defvalue: int, specific_name: string|null,
player: int|null}`. `aux.get("type")` in the source; the reference format
always carries the `type` key, so we model it as total. -/
structure FieldMeta where
  analog : Bool
  type : String
  defvalue : Nat
  specific_name : Option String
  player : Option Nat
deriving Repr, DecidableEq

/-- One port's field map: bitmask ↦ field metadata, in insertion order
(Python dict iteration order). -/
abbrev PortFields := List (Nat × FieldMeta)

/-- The per-machine reference data `ports_ref`: port tag ↦ field map,
in insertion order. `list(ports_ref)[port_idx]` indexes this order. -/
abbrev PortsRef := List (String × PortFields)

/-- `struct.unpack(FRAME_STRUCT_FMT, ...)` on a 16-byte chunk:
(seconds, attoseconds, curspeed), all little-endian. -/
def unpack_frame (bs : Bytes) : Nat × Nat × Nat :=
  (leNat (bs.take 4), leNat ((bs.drop 4).take 8), leNat ((bs.drop 12).take 4))

/-- `read_next_frame_metadata`: read `FRAME_STRUCT_SIZE` bytes and unpack.
Python returns `None` both when zero bytes are available (clean end of
payload) and when a nonzero short read occurs (`struct.error`, error printed
to stderr); the two cases are told apart at the call site from the stream
state. The remaining stream is returned explicitly. -/
def read_next_frame_metadata (data : Bytes) : Option ((Nat × Nat × Nat) × Bytes) :=
  if data.length < FRAME_STRUCT_SIZE then none
  else some (unpack_frame (data.take FRAME_STRUCT_SIZE), data.drop FRAME_STRUCT_SIZE)

/-- `read_next_frame_digital_inputs`: read `ports_count` pairs of 32-bit
little-endian integers (defvalue, digital), one pair per port, in port order.
Any short read (including an empty one) raises `struct.error` in the source
and yields `None`. The two Python dicts keyed `0 .. ports_count-1` are
modelled as two lists in port order. -/
def read_next_frame_digital_inputs (data : Bytes) (ports_count : Nat) :
    Option ((List Nat × List Nat) × Bytes) :=
  match ports_count with
  | 0 => some (([], []), data)
  | n + 1 =>
    if data.length < DIGITAL_STRUCT_SIZE then none
    else
      let chunk := data.take DIGITAL_STRUCT_SIZE
      let defvalue := leNat (chunk.take 4)
      let digital := leNat (chunk.drop 4)
      match read_next_frame_digital_inputs (data.drop DIGITAL_STRUCT_SIZE) n with
      | none => none
      | some ((defs, digs), rest) => some ((defvalue :: defs, digital :: digs), rest)

/-- `read_next_frame_analog_inputs`: read `ports_count` fixed-size analog
records, unpacking (and discarding) each; a short read yields `None`.
The source returns `True` as a placeholder on success; here the remaining
stream is returned. -/
def read_next_frame_analog_inputs (data : Bytes) (ports_count : Nat) : Option Bytes :=
  match ports_count with
  | 0 => some data
  | n + 1 =>
    if data.length < ANALOG_STRUCT_SIZE then none
    else read_next_frame_analog_inputs (data.drop ANALOG_STRUCT_SIZE) n

/-- `check_digital_inputs`: walk one port's reference field map in insertion
order and collect the `type` of every field whose mask is fully covered by
the port's active digital bit field. `button_inputs_def` is accepted but
unused, exactly as in the source (`pylint: disable=unused-argument`).
Out-of-range indexing (an `IndexError`/`KeyError` in Python, excluded by
`main`'s validation) is modelled with default values. -/
def check_digital_inputs (ports_ref : PortsRef) (button_inputs_def : List Nat)
    (button_inputs_digital : List Nat) (port_idx : Nat) : List String :=
  let fields : PortFields := ((ports_ref.get? port_idx).map (fun p => p.2)).getD []
  fields.foldl
    (fun pressed_buttons mf =>
      if button_inputs_digital.getD port_idx 0 &&& mf.1 = mf.1 then
        pressed_buttons ++ [mf.2.type]
      else pressed_buttons)
    []

/-- The analog field count hoisted before the frame loop in
`iter_inp_payload`: `analog_fields_count += sum(1 for x in p.values() if
x["analog"])` over all ports. -/
def analog_fields_count (ports_ref : PortsRef) : Nat :=
  ports_ref.foldl (fun acc p => acc + p.2.countP (fun f => f.2.analog)) 0

/-- Total bytes of one complete frame record: frame metadata, then one
digital pair per port, then one analog record per analog-capable field. -/
def frame_total_size (ports_ref : PortsRef) : Nat :=
  FRAME_STRUCT_SIZE + DIGITAL_STRUCT_SIZE * ports_ref.length
    + ANALOG_STRUCT_SIZE * analog_fields_count ports_ref

/-- One output frame dict `{"f": ..., "s": ..., "as": ..., "cs": ..., "p": ...}`.
The field `atto` carries the JSON key `"as"` (attoseconds); `p` is the
port-index ↦ pressed-buttons dict in requested-port order. -/
structure FrameOut where
  f : Nat
  s : Nat
  atto : Nat
  cs : Nat
  p : List (Nat × List String)
deriving Repr, DecidableEq

/-- The `while True` loop body of `iter_inp_payload`, with the `BytesIO`
cursor explicit and structural recursion on a fuel bound (every iteration
consumes at least `FRAME_STRUCT_SIZE` bytes, so any `fuel ≥ data.length`
is enough; `iter_inp_payload_t` passes `data.length`). `frame_no` is the
frame counter before the increment at the top of the loop body. The second
component of the result records whether a `struct.error` diagnostic was
printed to stderr by one of the three readers, i.e. whether the loop ended
on a truncated read rather than cleanly at a frame-metadata boundary. -/
def iter_frames (fuel : Nat) (ports_ref : PortsRef) (ports_to_check : List Nat)
    (frame_no : Nat) (data : Bytes) : List FrameOut × Bool :=
  match fuel with
  | 0 => ([], !data.isEmpty)
  | fuel + 1 =>
    match read_next_frame_metadata data with
    | none => ([], !data.isEmpty)
    | some ((seconds, attoseconds, curspeed), rest1) =>
      match read_next_frame_digital_inputs rest1 ports_ref.length with
      | none => ([], true)
      | some ((button_inputs_def, button_inputs_digital), rest2) =>
        match read_next_frame_analog_inputs rest2 (analog_fields_count ports_ref) with
        | none => ([], true)
        | some rest3 =>
          let next_frame_output : FrameOut :=
            { f := frame_no + 1, s := seconds, atto := attoseconds, cs := curspeed
              p := ports_to_check.map
                (fun port_idx =>
                  (port_idx,
                   check_digital_inputs ports_ref button_inputs_def
                     button_inputs_digital port_idx)) }
          let rest := iter_frames fuel ports_ref ports_to_check (frame_no + 1) rest3
          (next_frame_output :: rest.1, rest.2)

/-- `iter_inp_payload`, with the stderr truncation diagnostic exposed as the
second component: `(output, truncated)`. `ports_to_check = none` means all
ports, i.e. `range(ports_count)`. -/
def iter_inp_payload_t (ports_ref : PortsRef) (inp_data : Bytes)
    (ports_to_check : Option (List Nat)) : List FrameOut × Bool :=
  iter_frames inp_data.length ports_ref
    (ports_to_check.getD (List.range ports_ref.length)) 0 inp_data

/-- `iter_inp_payload`'s Python return value: the list of per-frame output
dicts and nothing else. -/
def iter_inp_payload (ports_ref : PortsRef) (inp_data : Bytes)
    (ports_to_check : Option (List Nat)) : List FrameOut :=
  (iter_inp_payload_t ports_ref inp_data ports_to_check).1

/-! ## Header parsing -/

/-- The distinct failure causes inside `parse_header`'s `try` block, in the
order the checks run: `InvalidInpHeaderError("Not a MAME INP file")` for a
bad or short header; then the basetime diagnostic's
`datetime.utcfromtimestamp(basetime)` which raises `OverflowError` above
`TIME_T_MAX`, `OSError` above `GMTIME_MAX_TIMESTAMP`, or `ValueError` above
`DATETIME_MAX_TIMESTAMP`; then `InvalidInpHeaderError("Invalid version:
...")` for an unsupported version pair; then `UnicodeDecodeError` for
non-ASCII sysname/appdesc bytes. The `except (OSError, UnicodeDecodeError,
InvalidInpHeaderError)` clause catches all of these EXCEPT
`basetimeValueError` and `basetimeOverflowError`, which propagate out of
`parse_header` (and out of `main`) and crash the process. -/
inductive HeaderError where
  | notMameInp
  | basetimeOverflowError
  | basetimeOsError
  | basetimeValueError
  | invalidVersion
  | unicodeDecodeError
deriving Repr, DecidableEq

/-- Whether a failure cause is in `parse_header`'s `except (OSError,
UnicodeDecodeError, InvalidInpHeaderError)` tuple and is therefore caught
(message printed, `None` returned) rather than propagated. -/
def header_error_caught : HeaderError → Bool
  | .basetimeOverflowError => false
  | .basetimeValueError => false
  | _ => true

/-- Python `str.strip("\0")`: remove NUL bytes from both ends. -/
def strip_nul (s : Bytes) : Bytes :=
  ((s.dropWhile (fun b => b == 0)).reverse.dropWhile (fun b => b == 0)).reverse

/-- Python `bytes.decode("ascii")`: succeeds iff every byte is < 128. -/
def decode_ascii (s : Bytes) : Option Bytes :=
  if s.all (fun b => b < 128) then some s else none

/-- The successful result of `parse_header`: sysname (ASCII bytes, NULs
stripped), the raw 64 header bytes, the compressed payload (the rest of the
file), and the major/minor version bytes. -/
structure ParsedHeader where
  sysname : Bytes
  header_bytes : Bytes
  compressed_payload_bytes : Bytes
  ver_maj : Nat
  ver_min : Nat
deriving Repr, DecidableEq

/-- The body of `parse_header`'s `try` block, over the file's bytes. The
basetime field is read between the signature check and the version check to
print a timestamp diagnostic; the print itself is not modelled but the
failure of `datetime.utcfromtimestamp(basetime)` for out-of-range basetimes
is (three regions, checked in the interpreter's order: `time_t` conversion,
`gmtime`, `datetime` year range). Offsets: signature at 0, basetime at 0x08,
version bytes at 0x10/0x11, sysname at 0x14 (12 bytes), appdesc at 0x20
(32 bytes). -/
def parse_header_ex (file_bytes : Bytes) : Except HeaderError ParsedHeader :=
  let header_bytes := file_bytes.take HEADER_BYTES
  if header_bytes.length < HEADER_BYTES ∨ header_bytes.take 8 ≠ MAGIC then
    .error .notMameInp
  else
    let basetime := leNat ((header_bytes.drop OFFS_BASETIME).take BASETIME_BYTES)
    if TIME_T_MAX < basetime then .error .basetimeOverflowError
    else if GMTIME_MAX_TIMESTAMP < basetime then .error .basetimeOsError
    else if DATETIME_MAX_TIMESTAMP < basetime then .error .basetimeValueError
    else
      let ver_maj := header_bytes.getD 0x10 0
      let ver_min := header_bytes.getD 0x11 0
      if ver_maj ≠ 3 ∨ (ver_min ≠ 0 ∧ ver_min ≠ 5) then .error .invalidVersion
      else
        match decode_ascii ((header_bytes.drop 0x14).take 12),
              decode_ascii ((header_bytes.drop 0x20).take 32) with
        | some sysname_raw, some _appdesc =>
          .ok ⟨strip_nul sysname_raw, header_bytes, file_bytes.drop HEADER_BYTES,
               ver_maj, ver_min⟩
        | _, _ => .error .unicodeDecodeError

/-- `parse_header` as seen by its caller. `some (some ph)`: parsed
successfully. `some none`: a caught failure — message printed, `None`
returned. `none`: an uncaught `ValueError`/`OverflowError` from the basetime
diagnostic propagated, so the function (and `main` with it) never returns —
the process crashes with a traceback. -/
def parse_header (file_bytes : Bytes) : Option (Option ParsedHeader) :=
  match parse_header_ex file_bytes with
  | .ok ph => some (some ph)
  | .error e => if header_error_caught e then some none else none

/-! ## The `main` session -/

/-- The fatal-exit causes of `main` relevant to a decode session:
`parse_header` returned `None`; the reference lookup failed (either
`UnsupportedGameError` or a `None` return of `get_iptprt_ref`); or a
requested port index was out of range. -/
inductive MainError where
  | invalidHeader
  | unsupportedGame
  | invalidPortRequest
deriving Repr, DecidableEq

/-- `main`'s validation of one requested port: `0 <= check_port <=
ports_count - 1`, over Python ints. -/
def valid_check_port (ports_count : Nat) (check_port : Int) : Bool :=
  decide (0 ≤ check_port ∧ check_port ≤ (ports_count : Int) - 1)

/-- The decode session of `main` (the `--list-ports` and
`--write-decompressed` side paths are omitted). The reference-database
lookup `get_iptprt_ref` (gzip/JSON parsing, out of the decoder's scope) is
abstracted as a function from sysname bytes to reference data, and zlib
decompression of the payload as an arbitrary function; `SKIP_BYTES` is 0,
so the `seek` after decompression is a no-op. Port requests are validated
before the payload is decompressed or read; on success the validated
(hence nonnegative) indices are passed to `iter_inp_payload`. The result is
`none` when an uncaught exception from `parse_header` propagates out of
`main` (the process crashes), and `some` of `main`'s outcome otherwise. -/
def main_run (file_bytes : Bytes) (ref_db : Bytes → Option PortsRef)
    (check_ports : Option (List Int)) (decompress : Bytes → Bytes) :
    Option (MainError ⊕ List FrameOut) :=
  match parse_header file_bytes with
  | none => none
  | some none => some (.inl .invalidHeader)
  | some (some ph) =>
    match ref_db ph.sysname with
    | none => some (.inl .unsupportedGame)
    | some iptprt_ref =>
      let ports_ok := match check_ports with
        | none => true
        | some l => l.all (fun cp => valid_check_port iptprt_ref.length cp)
      if ports_ok then
        some (.inr (iter_inp_payload iptprt_ref (decompress ph.compressed_payload_bytes)
          (check_ports.map (fun l => l.map Int.toNat))))
      else some (.inl .invalidPortRequest)

/-! ## Derived functions and sample data used in the verification -/

/-- The (defvalue, digital) value lists `read_next_frame_digital_inputs`
produces on success, as a total function of the stream prefix. -/
def digital_values : Bytes → Nat → List Nat × List Nat
  | _, 0 => ([], [])
  | data, n + 1 =>
    let chunk := data.take DIGITAL_STRUCT_SIZE
    let rest := digital_values (data.drop DIGITAL_STRUCT_SIZE) n
    (leNat (chunk.take 4) :: rest.1, leNat (chunk.drop 4) :: rest.2)

/-- The frame the loop body emits, as a function of the frame record's own
bytes only (the first `frame_total_size` bytes of the remaining stream). -/
def decode_frame (ports_ref : PortsRef) (ports_to_check : List Nat)
    (frame_no : Nat) (chunk : Bytes) : FrameOut :=
  let meta := unpack_frame (chunk.take FRAME_STRUCT_SIZE)
  let dig := digital_values (chunk.drop FRAME_STRUCT_SIZE) ports_ref.length
  { f := frame_no + 1, s := meta.1, atto := meta.2.1, cs := meta.2.2
    p := ports_to_check.map
      (fun port_idx => (port_idx, check_digital_inputs ports_ref dig.1 dig.2 port_idx)) }

/-- The 64-byte header layout read by `parse_header` (offsets of §6 of the
format): magic, 8-byte base time, major/minor version, 2 unused gap bytes,
NUL-padded 12-byte machine identifier, NUL-padded 32-byte application
description. -/
def encode_header (basetime gap : Bytes) (ver_maj ver_min : Nat)
    (name appdesc : Bytes) : Bytes :=
  MAGIC ++ basetime ++ [ver_maj, ver_min] ++ gap
    ++ (name ++ List.replicate (12 - name.length) 0)
    ++ (appdesc ++ List.replicate (32 - appdesc.length) 0)

/-- One port with a single digital field of mask `0x05`. -/
def refMask5 : PortsRef := [(":IN0", [(5, ⟨false, "BTN1", 0, none, none⟩)])]

/-- One port with two digital fields of masks `0x01` and `0x02`, in that
insertion order. -/
def refTwoFields : PortsRef :=
  [(":IN0", [(1, ⟨false, "LEFT", 0, none, none⟩), (2, ⟨false, "RIGHT", 0, none, none⟩)])]

/-- One port whose single field is analog with mask 0. -/
def refAnalog0 : PortsRef := [(":IN0", [(0, ⟨true, "PADDLE", 0, none, none⟩)])]

/-- One port, one digital field, no analog fields: 24-byte frame records. -/
def refOnePort : PortsRef := [(":IN0", [(1, ⟨false, "COIN1", 0, none, none⟩)])]

/-- One port with one digital and one analog field: 37-byte frame records. -/
def refDigAna : PortsRef :=
  [(":IN0", [(1, ⟨false, "COIN1", 0, none, none⟩), (2, ⟨true, "DIAL", 0, none, none⟩)])]

/-- A reference database holding exactly the machine "pac" (`[112, 97, 99]`
in ASCII bytes). -/
def refDbW : Bytes → Option PortsRef :=
  fun sysname => if sysname = [112, 97, 99] then some refOnePort else none

/-- A concrete valid header for machine "pac", version 3.0. -/
def headerW : Bytes :=
  encode_header (List.replicate 8 0) [0, 0] 3 0 [112, 97, 99] []

/-! ## Reader lemmas

Each `read_next_frame_*` helper fails exactly when fewer bytes remain than
the records it must read, and otherwise consumes exactly the record bytes. -/

theorem read_next_frame_metadata_none (data : Bytes)
    (h : data.length < FRAME_STRUCT_SIZE) : read_next_frame_metadata data = none := by
  simp [read_next_frame_metadata, h]

theorem read_next_frame_metadata_some (data : Bytes)
    (h : FRAME_STRUCT_SIZE ≤ data.length) :
    read_next_frame_metadata data
      = some (unpack_frame (data.take FRAME_STRUCT_SIZE), data.drop FRAME_STRUCT_SIZE) := by
  simp [read_next_frame_metadata, Nat.not_lt.mpr h]

theorem read_next_frame_digital_inputs_none :
    ∀ (n : Nat) (data : Bytes), data.length < DIGITAL_STRUCT_SIZE * n →
      read_next_frame_digital_inputs data n = none := by
  intro n
  induction n with
  | zero => intro data h; simp [DIGITAL_STRUCT_SIZE] at h
  | succ n ih =>
    intro data h
    rw [read_next_frame_digital_inputs]
    by_cases h8 : data.length < DIGITAL_STRUCT_SIZE
    · simp [h8]
    · have hrec : (data.drop DIGITAL_STRUCT_SIZE).length < DIGITAL_STRUCT_SIZE * n := by
        simp only [List.length_drop, DIGITAL_STRUCT_SIZE] at *
        omega
      simp [h8, ih _ hrec]

theorem read_next_frame_digital_inputs_some :
    ∀ (n : Nat) (data : Bytes), DIGITAL_STRUCT_SIZE * n ≤ data.length →
      read_next_frame_digital_inputs data n
        = some (digital_values data n, data.drop (DIGITAL_STRUCT_SIZE * n)) := by
  intro n
  induction n with
  | zero => intro data _; simp [read_next_frame_digital_inputs, digital_values]
  | succ n ih =>
    intro data h
    have h8 : ¬ data.length < DIGITAL_STRUCT_SIZE := by
      simp only [DIGITAL_STRUCT_SIZE] at *; omega
    have hrec : DIGITAL_STRUCT_SIZE * n ≤ (data.drop DIGITAL_STRUCT_SIZE).length := by
      simp only [List.length_drop, DIGITAL_STRUCT_SIZE] at *; omega
    rw [read_next_frame_digital_inputs]
    simp only [h8, if_false, ih _ hrec, digital_values, List.drop_drop]
    have : DIGITAL_STRUCT_SIZE + DIGITAL_STRUCT_SIZE * n = DIGITAL_STRUCT_SIZE * (n + 1) := by
      simp [DIGITAL_STRUCT_SIZE]; omega
    rw [this]

theorem read_next_frame_analog_inputs_none :
    ∀ (n : Nat) (data : Bytes), data.length < ANALOG_STRUCT_SIZE * n →
      read_next_frame_analog_inputs data n = none := by
  intro n
  induction n with
  | zero => intro data h; simp [ANALOG_STRUCT_SIZE] at h
  | succ n ih =>
    intro data h
    rw [read_next_frame_analog_inputs]
    by_cases h13 : data.length < ANALOG_STRUCT_SIZE
    · simp [h13]
    · have hrec : (data.drop ANALOG_STRUCT_SIZE).length < ANALOG_STRUCT_SIZE * n := by
        simp only [List.length_drop, ANALOG_STRUCT_SIZE] at *; omega
      simp [h13, ih _ hrec]

theorem read_next_frame_analog_inputs_some :
    ∀ (n : Nat) (data : Bytes), ANALOG_STRUCT_SIZE * n ≤ data.length →
      read_next_frame_analog_inputs data n = some (data.drop (ANALOG_STRUCT_SIZE * n)) := by
  intro n
  induction n with
  | zero => intro data _; simp [read_next_frame_analog_inputs]
  | succ n ih =>
    intro data h
    have h13 : ¬ data.length < ANALOG_STRUCT_SIZE := by
      simp only [ANALOG_STRUCT_SIZE] at *; omega
    have hrec : ANALOG_STRUCT_SIZE * n ≤ (data.drop ANALOG_STRUCT_SIZE).length := by
      simp only [List.length_drop, ANALOG_STRUCT_SIZE] at *; omega
    rw [read_next_frame_analog_inputs]
    simp only [h13, if_false, ih _ hrec, List.drop_drop]
    have : ANALOG_STRUCT_SIZE + ANALOG_STRUCT_SIZE * n = ANALOG_STRUCT_SIZE * (n + 1) := by
      simp [ANALOG_STRUCT_SIZE]; omega
    rw [this]

/-! ## One-step behaviour of the frame loop -/

theorem frame_struct_le_total (ports_ref : PortsRef) :
    FRAME_STRUCT_SIZE ≤ frame_total_size ports_ref :=
  Nat.le_add_right _ _ |>.trans (Nat.le_add_right _ _)

/-- `digital_values` reads only the first `DIGITAL_STRUCT_SIZE * n` bytes. -/
theorem digital_values_take :
    ∀ (n : Nat) (data : Bytes) (m : Nat), DIGITAL_STRUCT_SIZE * n ≤ m →
      digital_values (data.take m) n = digital_values data n := by
  intro n
  induction n with
  | zero => intro data m _; rfl
  | succ n ih =>
    intro data m h
    have h8 : DIGITAL_STRUCT_SIZE ≤ m := by simp only [DIGITAL_STRUCT_SIZE] at *; omega
    have hrec : DIGITAL_STRUCT_SIZE * n ≤ m - DIGITAL_STRUCT_SIZE := by
      simp only [DIGITAL_STRUCT_SIZE] at *; omega
    have h1 : (data.take m).take DIGITAL_STRUCT_SIZE = data.take DIGITAL_STRUCT_SIZE := by
      rw [List.take_take, Nat.min_eq_left h8]
    rw [digital_values, digital_values, h1, List.drop_take, ih _ _ hrec]

/-- Ending the loop: on an empty stream the metadata read returns no bytes,
which is the clean end of the payload. -/
theorem iter_frames_nil (fuel : Nat) (ports_ref : PortsRef) (ptc : List Nat) (k : Nat) :
    iter_frames fuel ports_ref ptc k [] = ([], false) := by
  cases fuel with
  | zero => rfl
  | succ fuel =>
    rw [iter_frames]
    simp [read_next_frame_metadata_none _ (by simp [FRAME_STRUCT_SIZE] :
      ([] : Bytes).length < FRAME_STRUCT_SIZE)]

/-- Ending the loop on a truncated stream: bytes remain but fewer than one
full frame record, so one of the three readers hits a short read and the
loop stops, with the `struct.error` diagnostic printed. -/
theorem iter_frames_trunc (fuel : Nat) (ports_ref : PortsRef) (ptc : List Nat) (k : Nat)
    (data : Bytes) (h0 : data ≠ []) (h : data.length < frame_total_size ports_ref) :
    iter_frames fuel ports_ref ptc k data = ([], true) := by
  have hne : (!data.isEmpty) = true := by
    simp [List.isEmpty_iff, h0]
  cases fuel with
  | zero => rw [iter_frames, hne]
  | succ fuel =>
    rw [iter_frames]
    by_cases h16 : data.length < FRAME_STRUCT_SIZE
    · simp only [read_next_frame_metadata_none _ h16, hne]
    · push_neg at h16
      by_cases hd : (data.drop FRAME_STRUCT_SIZE).length
          < DIGITAL_STRUCT_SIZE * ports_ref.length
      · simp only [read_next_frame_metadata_some _ h16,
          read_next_frame_digital_inputs_none _ _ hd]
      · push_neg at hd
        have ha : ((data.drop FRAME_STRUCT_SIZE).drop
            (DIGITAL_STRUCT_SIZE * ports_ref.length)).length
            < ANALOG_STRUCT_SIZE * analog_fields_count ports_ref := by
          simp only [List.length_drop, frame_total_size] at *
          omega
        simp only [read_next_frame_metadata_some _ h16,
          read_next_frame_digital_inputs_some _ _ hd,
          read_next_frame_analog_inputs_none _ _ ha]

/-- One successful loop iteration: when at least one full frame record
remains, the loop emits exactly the frame decoded from the record's bytes
and continues after exactly `frame_total_size` consumed bytes. -/
theorem iter_frames_step (fuel : Nat) (ports_ref : PortsRef) (ptc : List Nat) (k : Nat)
    (data : Bytes) (h : frame_total_size ports_ref ≤ data.length) :
    iter_frames (fuel + 1) ports_ref ptc k data
      = (decode_frame ports_ref ptc k (data.take (frame_total_size ports_ref))
            :: (iter_frames fuel ports_ref ptc (k + 1)
                  (data.drop (frame_total_size ports_ref))).1,
         (iter_frames fuel ports_ref ptc (k + 1)
            (data.drop (frame_total_size ports_ref))).2) := by
  have h16 : FRAME_STRUCT_SIZE ≤ data.length := (frame_struct_le_total ports_ref).trans h
  have hd : DIGITAL_STRUCT_SIZE * ports_ref.length ≤ (data.drop FRAME_STRUCT_SIZE).length := by
    simp only [List.length_drop, frame_total_size] at *; omega
  have ha : ANALOG_STRUCT_SIZE * analog_fields_count ports_ref
      ≤ ((data.drop FRAME_STRUCT_SIZE).drop (DIGITAL_STRUCT_SIZE * ports_ref.length)).length := by
    simp only [List.length_drop, frame_total_size] at *; omega
  have hdrop : ((data.drop FRAME_STRUCT_SIZE).drop
      (DIGITAL_STRUCT_SIZE * ports_ref.length)).drop
      (ANALOG_STRUCT_SIZE * analog_fields_count ports_ref)
      = data.drop (frame_total_size ports_ref) := by
    rw [List.drop_drop, List.drop_drop]
    simp only [frame_total_size]
    ring_nf
  have hmeta : (data.take (frame_total_size ports_ref)).take FRAME_STRUCT_SIZE
      = data.take FRAME_STRUCT_SIZE := by
    rw [List.take_take, Nat.min_eq_left (frame_struct_le_total ports_ref)]
  have hdig : digital_values ((data.take (frame_total_size ports_ref)).drop FRAME_STRUCT_SIZE)
      ports_ref.length = digital_values (data.drop FRAME_STRUCT_SIZE) ports_ref.length := by
    rw [List.drop_take]
    exact digital_values_take _ _ _ (by simp only [frame_total_size]; omega)
  rw [iter_frames]
  simp only [read_next_frame_metadata_some _ h16,
    read_next_frame_digital_inputs_some _ _ hd, read_next_frame_analog_inputs_some _ _ ha,
    hdrop, decode_frame, hmeta, hdig]

/-! ## Global behaviour of the frame loop -/

theorem frame_total_size_pos (ports_ref : PortsRef) : 0 < frame_total_size ports_ref :=
  Nat.lt_of_lt_of_le (by norm_num [FRAME_STRUCT_SIZE]) (frame_struct_le_total ports_ref)

/-- The loop decodes exactly `⌊payload length / frame record size⌋` frames,
and the truncation diagnostic fires exactly when the payload length is not a
whole number of frame records. -/
theorem iter_frames_length_flag (ports_ref : PortsRef) (ptc : List Nat) :
    ∀ (fuel : Nat) (data : Bytes) (k : Nat), data.length ≤ fuel →
      (iter_frames fuel ports_ref ptc k data).1.length
          = data.length / frame_total_size ports_ref
        ∧ (iter_frames fuel ports_ref ptc k data).2
          = decide (data.length % frame_total_size ports_ref ≠ 0) := by
  intro fuel
  induction fuel with
  | zero =>
    intro data k h
    have hnil : data = [] := List.length_eq_zero.mp (Nat.le_zero.mp h)
    subst hnil
    simp [iter_frames_nil]
  | succ fuel ih =>
    intro data k h
    rcases Nat.lt_or_ge data.length (frame_total_size ports_ref) with hlt | hge
    · rcases List.eq_nil_or_concat data with hnil | _
      case inl =>
        subst hnil
        simp [iter_frames_nil]
      case inr =>
        have hne : data ≠ [] := by
          rintro rfl
          simp_all
        rw [iter_frames_trunc _ _ _ _ _ hne hlt]
        have hpos : 0 < data.length := List.length_pos.mpr hne
        constructor
        · exact (Nat.div_eq_of_lt hlt).symm
        · rw [Nat.mod_eq_of_lt hlt]
          simp [hpos.ne']
    · rw [iter_frames_step _ _ _ _ _ hge]
      have hrest : (data.drop (frame_total_size ports_ref)).length ≤ fuel := by
        simp only [List.length_drop]
        have := frame_total_size_pos ports_ref
        omega
      obtain ⟨ih1, ih2⟩ := ih (data.drop (frame_total_size ports_ref)) (k + 1) hrest
      constructor
      · simp only [List.length_cons, ih1, List.length_drop]
        rw [Nat.div_eq_sub_div (frame_total_size_pos ports_ref) hge]
      · rw [ih2]
        have hmod : (data.length - frame_total_size ports_ref) % frame_total_size ports_ref
            = data.length % frame_total_size ports_ref := by
          conv_rhs => rw [← Nat.sub_add_cancel hge]
          rw [Nat.add_mod_right]
        simp only [List.length_drop, hmod]

/-- Any fuel bound at least the stream length yields the same result: the
fuel is an artefact of the embedding, not of the loop. -/
theorem iter_frames_fuel_congr (ports_ref : PortsRef) (ptc : List Nat) :
    ∀ (f1 f2 : Nat) (data : Bytes) (k : Nat), data.length ≤ f1 → data.length ≤ f2 →
      iter_frames f1 ports_ref ptc k data = iter_frames f2 ports_ref ptc k data := by
  intro f1
  induction f1 with
  | zero =>
    intro f2 data k h1 _
    have hnil : data = [] := List.length_eq_zero.mp (Nat.le_zero.mp h1)
    subst hnil
    rw [iter_frames_nil, iter_frames_nil]
  | succ f1 ih =>
    intro f2 data k h1 h2
    rcases List.eq_nil_or_concat data with hnil | _
    case inl =>
      subst hnil
      rw [iter_frames_nil, iter_frames_nil]
    case inr =>
      have hne : data ≠ [] := by
        rintro rfl
        simp_all
      rcases Nat.lt_or_ge data.length (frame_total_size ports_ref) with hlt | hge
      · rw [iter_frames_trunc _ _ _ _ _ hne hlt, iter_frames_trunc _ _ _ _ _ hne hlt]
      · cases f2 with
        | zero =>
          exact absurd (Nat.le_zero.mp h2) (by
            have := frame_total_size_pos ports_ref
            omega)
        | succ f2 =>
          rw [iter_frames_step _ _ _ _ _ hge, iter_frames_step _ _ _ _ _ hge]
          have hlen : (data.drop (frame_total_size ports_ref)).length ≤ f1 ∧
              (data.drop (frame_total_size ports_ref)).length ≤ f2 := by
            simp only [List.length_drop]
            have := frame_total_size_pos ports_ref
            omega
          rw [ih f2 _ (k + 1) hlen.1 hlen.2]

/-- Appending a short tail (fewer bytes than the next frame-metadata record)
to a whole number of complete frame records changes nothing about the decoded
frames — they are retained, not discarded — and flips only the truncation
diagnostic, which fires iff the tail is nonempty. -/
theorem iter_frames_append (ports_ref : PortsRef) (ptc : List Nat) (t : Bytes)
    (ht : t.length < FRAME_STRUCT_SIZE) :
    ∀ (fuel : Nat) (d : Bytes) (k : Nat), frame_total_size ports_ref ∣ d.length →
      (d ++ t).length ≤ fuel →
      iter_frames fuel ports_ref ptc k (d ++ t)
        = ((iter_frames fuel ports_ref ptc k d).1, !t.isEmpty) := by
  intro fuel
  induction fuel with
  | zero =>
    intro d k _ h
    simp only [List.length_append, Nat.le_zero] at h
    have hd : d = [] := List.length_eq_zero.mp (by omega)
    have htnil : t = [] := List.length_eq_zero.mp (by omega)
    subst hd; subst htnil
    simp [iter_frames_nil]
  | succ fuel ih =>
    intro d k hdvd h
    rcases List.eq_nil_or_concat d with hnil | _
    case inl =>
      subst hnil
      rcases List.eq_nil_or_concat t with htnil | _
      case inl =>
        subst htnil
        simp [iter_frames_nil]
      case inr =>
        have htne : t ≠ [] := by
          rintro rfl
          simp_all
        rw [List.nil_append, iter_frames_nil,
          iter_frames_trunc _ _ _ _ _ htne (ht.trans_le (frame_struct_le_total ports_ref))]
        simp [List.isEmpty_iff, htne]
    case inr =>
      have hne : d ≠ [] := by
        rintro rfl
        simp_all
      have hge : frame_total_size ports_ref ≤ d.length := by
        rcases hdvd with ⟨c, hc⟩
        have hpos : 0 < d.length := List.length_pos.mpr hne
        rcases Nat.eq_zero_or_pos c with rfl | hcpos
        · omega
        · calc frame_total_size ports_ref
              = frame_total_size ports_ref * 1 := (Nat.mul_one _).symm
            _ ≤ frame_total_size ports_ref * c := Nat.mul_le_mul_left _ hcpos
            _ = d.length := hc.symm
      have hge' : frame_total_size ports_ref ≤ (d ++ t).length := by
        simp only [List.length_append]
        omega
      rw [iter_frames_step _ _ _ _ _ hge', iter_frames_step _ _ _ _ _ hge]
      have htake : (d ++ t).take (frame_total_size ports_ref)
          = d.take (frame_total_size ports_ref) := List.take_append_of_le_length hge
      have hdrop : (d ++ t).drop (frame_total_size ports_ref)
          = d.drop (frame_total_size ports_ref) ++ t := List.drop_append_of_le_length hge
      have hdvd' : frame_total_size ports_ref ∣ (d.drop (frame_total_size ports_ref)).length := by
        simp only [List.length_drop]
        exact (Nat.dvd_sub' hdvd dvd_rfl)
      have hfuel : (d.drop (frame_total_size ports_ref) ++ t).length ≤ fuel := by
        simp only [List.length_append, List.length_drop] at *
        have := frame_total_size_pos ports_ref
        omega
      rw [htake, hdrop, ih _ (k + 1) hdvd' hfuel]

/-! ## Button resolver lemmas -/

theorem foldl_append_if {α : Type} (p : α → Prop) [DecidablePred p] (g : α → String) :
    ∀ (l : List α) (init : List String),
      l.foldl (fun acc x => if p x then acc ++ [g x] else acc) init
        = init ++ (l.filter (fun x => decide (p x))).map g := by
  intro l
  induction l with
  | nil => intro init; simp
  | cons x xs ih =>
    intro init
    by_cases hx : p x
    · simp [List.foldl_cons, hx, ih]
    · simp [List.foldl_cons, hx, ih]

/-- `check_digital_inputs` returns exactly the control names of the covered
masks, filtered and ordered by the port's field-map insertion order. -/
theorem check_digital_inputs_eq (ports_ref : PortsRef) (button_inputs_def : List Nat)
    (button_inputs_digital : List Nat) (port_idx : Nat) (port_name : String)
    (fields : PortFields) (hp : ports_ref.get? port_idx = some (port_name, fields)) :
    check_digital_inputs ports_ref button_inputs_def button_inputs_digital port_idx
      = (fields.filter
            (fun mf => decide (button_inputs_digital.getD port_idx 0 &&& mf.1 = mf.1))).map
          (fun mf => mf.2.type) := by
  unfold check_digital_inputs
  rw [hp]
  exact foldl_append_if _ _ fields []

/-- Membership in the resolver output, without uniqueness assumptions: a name
is returned iff some field of the port carries that name and has its mask
covered by the active bit field. -/
theorem mem_check_digital_inputs (ports_ref : PortsRef) (button_inputs_def : List Nat)
    (button_inputs_digital : List Nat) (port_idx : Nat) (port_name : String)
    (fields : PortFields) (hp : ports_ref.get? port_idx = some (port_name, fields))
    (s : String) :
    s ∈ check_digital_inputs ports_ref button_inputs_def button_inputs_digital port_idx
      ↔ ∃ mf ∈ fields,
          button_inputs_digital.getD port_idx 0 &&& mf.1 = mf.1 ∧ mf.2.type = s := by
  rw [check_digital_inputs_eq _ _ _ _ _ _ hp]
  simp only [List.mem_map, List.mem_filter, decide_eq_true_eq]
  constructor
  · rintro ⟨mf, ⟨hmem, hcov⟩, hty⟩
    exact ⟨mf, hmem, hcov, hty⟩
  · rintro ⟨mf, hmem, hcov, hty⟩
    exact ⟨mf, ⟨hmem, hcov⟩, hty⟩

/-- With pairwise-distinct control names on a port, a given field's name is
returned iff that field's own mask is covered. -/
theorem check_digital_inputs_mem_iff (ports_ref : PortsRef) (button_inputs_def : List Nat)
    (button_inputs_digital : List Nat) (port_idx : Nat) (port_name : String)
    (fields : PortFields) (hp : ports_ref.get? port_idx = some (port_name, fields))
    (hnd : (fields.map (fun mf => mf.2.type)).Nodup) (mask : Nat) (meta : FieldMeta)
    (hmem : (mask, meta) ∈ fields) :
    meta.type ∈ check_digital_inputs ports_ref button_inputs_def button_inputs_digital port_idx
      ↔ button_inputs_digital.getD port_idx 0 &&& mask = mask := by
  rw [mem_check_digital_inputs _ _ _ _ _ _ hp]
  constructor
  · rintro ⟨mf, hmf, hcov, hty⟩
    have heq : mf = (mask, meta) :=
      List.inj_on_of_nodup_map hnd hmf hmem hty
    rw [heq] at hcov
    exact hcov
  · intro hcov
    exact ⟨(mask, meta), hmem, hcov, rfl⟩

/-! ## Header lemmas -/

theorem dropWhile_zero_append (k : Nat) (l : Bytes) :
    (List.replicate k 0 ++ l).dropWhile (fun b => b == 0)
      = l.dropWhile (fun b => b == 0) := by
  induction k with
  | zero => rfl
  | succ k ih => simpa [List.replicate, List.dropWhile] using ih

theorem dropWhile_cons_false (a : Nat) (l : Bytes) (h : (a == 0) = false) :
    (a :: l).dropWhile (fun b => b == 0) = a :: l := by
  simp [List.dropWhile, h]

/-- `str.strip("\0")` undoes NUL padding exactly when the name itself
contains no NUL byte. -/
theorem strip_nul_pad (name : Bytes) (k : Nat) (h : ∀ b ∈ name, ¬ b = 0) :
    strip_nul (name ++ List.replicate k 0) = name := by
  rcases List.eq_nil_or_concat name with rfl | ⟨r, a, rfl⟩
  · unfold strip_nul
    have h1 : (List.replicate k 0).dropWhile (fun b => b == 0) = [] := by
      simpa using dropWhile_zero_append k []
    simp [h1]
  · simp only [List.concat_eq_append] at h ⊢
    have ha : (a == 0) = false := by
      simp only [beq_eq_false_iff_ne, ne_eq]
      exact h a (by simp)
    unfold strip_nul
    have h1 : ((r ++ [a]) ++ List.replicate k 0).dropWhile (fun b => b == 0)
        = (r ++ [a]) ++ List.replicate k 0 := by
      cases r with
      | nil => simpa using dropWhile_cons_false a (List.replicate k 0) ha
      | cons b bs =>
        have hb : (b == 0) = false := by
          simp only [beq_eq_false_iff_ne, ne_eq]
          exact h b (by simp)
        simpa using dropWhile_cons_false b (bs ++ [a] ++ List.replicate k 0) hb
    rw [h1, List.reverse_append, List.reverse_replicate, List.reverse_append]
    rw [dropWhile_zero_append]
    have h2 : ([a].reverse ++ r.reverse).dropWhile (fun b => b == 0)
        = [a].reverse ++ r.reverse := by
      simpa using dropWhile_cons_false a r.reverse ha
    rw [h2]
    simp

theorem encode_header_length (basetime gap : Bytes) (ver_maj ver_min : Nat)
    (name appdesc : Bytes) (hb : basetime.length = 8) (hg : gap.length = 2)
    (hn : name.length ≤ 12) (ha : appdesc.length ≤ 32) :
    (encode_header basetime gap ver_maj ver_min name appdesc).length = 64 := by
  simp [encode_header, MAGIC, hb, hg]
  omega

/-- Claim C8, amended: for every valid 64-byte header with a supported
version pair, whose base-time field decodes to a timestamp within
`datetime`'s representable range (at most `DATETIME_MAX_TIMESTAMP`, so the
timestamp diagnostic succeeds), and whose machine-identifier field is an
ASCII NUL-free name null-padded to 12 bytes, parsing succeeds and returns
exactly that name with the trailing NUL padding stripped and no other
alteration — the encode-then-parse round trip on the machine identifier —
together with the raw header bytes, the remaining file bytes as compressed
payload, and the version pair. -/
theorem C8_machine_identifier_roundtrip (basetime gap : Bytes) (ver_maj ver_min : Nat)
    (name appdesc payload : Bytes)
    (hb : basetime.length = 8) (hg : gap.length = 2)
    (hn : name.length ≤ 12) (ha : appdesc.length ≤ 32)
    (hbt : leNat basetime ≤ DATETIME_MAX_TIMESTAMP)
    (hver : ver_maj = 3 ∧ (ver_min = 0 ∨ ver_min = 5))
    (hname : ∀ b ∈ name, b < 128 ∧ ¬ b = 0)
    (happ : ∀ b ∈ appdesc, b < 128) :
    parse_header_ex (encode_header basetime gap ver_maj ver_min name appdesc ++ payload)
      = .ok ⟨name, encode_header basetime gap ver_maj ver_min name appdesc, payload,
             ver_maj, ver_min⟩ := by
  have hpn : (name ++ List.replicate (12 - name.length) 0).length = 12 := by
    simp
    omega
  have hpa : (appdesc ++ List.replicate (32 - appdesc.length) 0).length = 32 := by
    simp
    omega
  have hlen : (encode_header basetime gap ver_maj ver_min name appdesc).length = 64 :=
    encode_header_length _ _ _ _ _ _ hb hg hn ha
  have htake64 : (encode_header basetime gap ver_maj ver_min name appdesc ++ payload).take
      HEADER_BYTES = encode_header basetime gap ver_maj ver_min name appdesc := by
    simp only [HEADER_BYTES, ← hlen]
    exact List.take_left _ _
  have hdrop64 : (encode_header basetime gap ver_maj ver_min name appdesc ++ payload).drop
      HEADER_BYTES = payload := by
    simp only [HEADER_BYTES, ← hlen]
    exact List.drop_left _ _
  have htake8 : (encode_header basetime gap ver_maj ver_min name appdesc).take 8 = MAGIC := by
    have e0 : encode_header basetime gap ver_maj ver_min name appdesc
        = MAGIC ++ (basetime ++ ([ver_maj, ver_min] ++ (gap
            ++ ((name ++ List.replicate (12 - name.length) 0)
              ++ (appdesc ++ List.replicate (32 - appdesc.length) 0))))) := by
      simp [encode_header]
    rw [e0, show (8 : Nat) = MAGIC.length from rfl]
    exact List.take_left _ _
  have e0b : encode_header basetime gap ver_maj ver_min name appdesc
      = MAGIC ++ (basetime ++ ([ver_maj, ver_min] ++ (gap
          ++ ((name ++ List.replicate (12 - name.length) 0)
            ++ (appdesc ++ List.replicate (32 - appdesc.length) 0))))) := by
    simp [encode_header]
  have hbase : ((encode_header basetime gap ver_maj ver_min name appdesc).drop
      OFFS_BASETIME).take BASETIME_BYTES = basetime := by
    rw [e0b, show OFFS_BASETIME = MAGIC.length from rfl, List.drop_left]
    rw [show BASETIME_BYTES = basetime.length from by simp [BASETIME_BYTES, hb]]
    exact List.take_left _ _
  have e1 : encode_header basetime gap ver_maj ver_min name appdesc
      = (MAGIC ++ basetime) ++ ([ver_maj, ver_min] ++ (gap
          ++ ((name ++ List.replicate (12 - name.length) 0)
            ++ (appdesc ++ List.replicate (32 - appdesc.length) 0)))) := by
    simp [encode_header]
  have hAB : (MAGIC ++ basetime).length = 16 := by simp [MAGIC, hb]
  have h16 : (encode_header basetime gap ver_maj ver_min name appdesc).getD 0x10 0
      = ver_maj := by
    rw [e1, List.getD_append_right _ _ _ _ (by rw [hAB])]
    rw [hAB]
    simp
  have h17 : (encode_header basetime gap ver_maj ver_min name appdesc).getD 0x11 0
      = ver_min := by
    rw [e1, List.getD_append_right _ _ _ _ (by rw [hAB]; norm_num)]
    rw [hAB]
    norm_num
  have e2 : encode_header basetime gap ver_maj ver_min name appdesc
      = (MAGIC ++ basetime ++ [ver_maj, ver_min] ++ gap)
          ++ ((name ++ List.replicate (12 - name.length) 0)
            ++ (appdesc ++ List.replicate (32 - appdesc.length) 0)) := by
    simp [encode_header]
  have hdrop20 : (encode_header basetime gap ver_maj ver_min name appdesc).drop 0x14
      = (name ++ List.replicate (12 - name.length) 0)
          ++ (appdesc ++ List.replicate (32 - appdesc.length) 0) := by
    rw [e2, show (0x14 : Nat) = (MAGIC ++ basetime ++ [ver_maj, ver_min] ++ gap).length
      from by simp [MAGIC, hb, hg]]
    exact List.drop_left _ _
  have htake12 : ((name ++ List.replicate (12 - name.length) 0)
      ++ (appdesc ++ List.replicate (32 - appdesc.length) 0)).take 12
      = name ++ List.replicate (12 - name.length) 0 := by
    have h := List.take_left (name ++ List.replicate (12 - name.length) 0)
      (appdesc ++ List.replicate (32 - appdesc.length) 0)
    rw [hpn] at h
    exact h
  have e3 : encode_header basetime gap ver_maj ver_min name appdesc
      = (MAGIC ++ basetime ++ [ver_maj, ver_min] ++ gap
          ++ (name ++ List.replicate (12 - name.length) 0))
          ++ (appdesc ++ List.replicate (32 - appdesc.length) 0) := by
    simp [encode_header]
  have hdrop32 : (encode_header basetime gap ver_maj ver_min name appdesc).drop 0x20
      = appdesc ++ List.replicate (32 - appdesc.length) 0 := by
    rw [e3, show (0x20 : Nat) = (MAGIC ++ basetime ++ [ver_maj, ver_min] ++ gap
      ++ (name ++ List.replicate (12 - name.length) 0)).length
      from by simp [MAGIC, hb, hg]; omega]
    exact List.drop_left _ _
  have htakepa : (appdesc ++ List.replicate (32 - appdesc.length) 0).take 32
      = appdesc ++ List.replicate (32 - appdesc.length) 0 := by
    have h := List.take_length (appdesc ++ List.replicate (32 - appdesc.length) 0)
    rw [hpa] at h
    exact h
  have halln : ((name ++ List.replicate (12 - name.length) 0).all
      (fun b => b < 128)) = true := by
    simp only [List.all_eq_true, List.mem_append, decide_eq_true_eq]
    rintro b (hbn | hbr)
    · exact (hname b hbn).1
    · rw [List.eq_of_mem_replicate hbr]
      norm_num
  have halla : ((appdesc ++ List.replicate (32 - appdesc.length) 0).all
      (fun b => b < 128)) = true := by
    simp only [List.all_eq_true, List.mem_append, decide_eq_true_eq]
    rintro b (hbn | hbr)
    · exact happ b hbn
    · rw [List.eq_of_mem_replicate hbr]
      norm_num
  have hstrip : strip_nul (name ++ List.replicate (12 - name.length) 0) = name :=
    strip_nul_pad name _ (fun b hbmem => (hname b hbmem).2)
  simp only [parse_header_ex, htake64, hdrop64, htake8, hbase, h16, h17, hdrop20,
    htake12, hdrop32, htakepa]
  rw [if_neg (by
    rw [hlen]
    simp [HEADER_BYTES])]
  rw [if_neg (by
    simp only [TIME_T_MAX, DATETIME_MAX_TIMESTAMP] at hbt ⊢
    omega)]
  rw [if_neg (by
    simp only [GMTIME_MAX_TIMESTAMP, DATETIME_MAX_TIMESTAMP] at hbt ⊢
    omega)]
  rw [if_neg (by
    simp only [DATETIME_MAX_TIMESTAMP] at hbt ⊢
    omega)]
  rw [if_neg (by
    obtain ⟨hmaj, hmin⟩ := hver
    rcases hmin with hmin | hmin <;> simp [hmaj, hmin])]
  simp only [decode_ascii, halln, halla, if_true, hstrip]

/-! ## Header failure lemmas -/

theorem parse_header_ex_short (file_bytes : Bytes) (h : file_bytes.length < HEADER_BYTES) :
    parse_header_ex file_bytes = .error .notMameInp := by
  simp only [parse_header_ex]
  rw [if_pos (Or.inl (by
    simp only [List.length_take, HEADER_BYTES] at *
    omega))]

theorem parse_header_ex_bad_magic (file_bytes : Bytes) (h : file_bytes.take 8 ≠ MAGIC) :
    parse_header_ex file_bytes = .error .notMameInp := by
  simp only [parse_header_ex]
  rw [if_pos (Or.inr (by
    rw [List.take_take]
    simpa [HEADER_BYTES] using h))]

theorem parse_header_ex_magic_byte (file_bytes : Bytes) (i : Nat) (hi : i < 8)
    (h : file_bytes.getD i 0 ≠ MAGIC.getD i 0) :
    parse_header_ex file_bytes = .error .notMameInp := by
  apply parse_header_ex_bad_magic
  intro heq
  apply h
  have hg : (file_bytes.take 8).get? i = file_bytes.get? i := List.get?_take hi
  calc file_bytes.getD i 0 = (file_bytes.get? i).getD 0 := rfl
    _ = ((file_bytes.take 8).get? i).getD 0 := by rw [hg]
    _ = (file_bytes.take 8).getD i 0 := rfl
    _ = MAGIC.getD i 0 := by rw [heq]

theorem getD_take_of_lt (l : Bytes) (i n : Nat) (hi : i < n) :
    (l.take n).getD i 0 = l.getD i 0 := by
  have hg : (l.take n).get? i = l.get? i := List.get?_take hi
  calc (l.take n).getD i 0 = ((l.take n).get? i).getD 0 := rfl
    _ = (l.get? i).getD 0 := by rw [hg]
    _ = l.getD i 0 := rfl

/-- The basetime slice read through the 64-byte header prefix equals the
slice of the raw file: the field lies entirely inside the prefix. -/
theorem basetime_slice (file_bytes : Bytes) :
    ((file_bytes.take HEADER_BYTES).drop OFFS_BASETIME).take BASETIME_BYTES
      = (file_bytes.drop OFFS_BASETIME).take BASETIME_BYTES := by
  rw [List.drop_take, List.take_take]
  norm_num [HEADER_BYTES, OFFS_BASETIME, BASETIME_BYTES]

theorem parse_header_ex_bad_version (file_bytes : Bytes)
    (hlen : HEADER_BYTES ≤ file_bytes.length) (hmagic : file_bytes.take 8 = MAGIC)
    (hbt : leNat ((file_bytes.drop OFFS_BASETIME).take BASETIME_BYTES)
        ≤ DATETIME_MAX_TIMESTAMP)
    (hver : ¬ (file_bytes.getD 0x10 0 = 3
        ∧ (file_bytes.getD 0x11 0 = 0 ∨ file_bytes.getD 0x11 0 = 5))) :
    parse_header_ex file_bytes = .error .invalidVersion := by
  have h16 : (file_bytes.take HEADER_BYTES).getD 0x10 0 = file_bytes.getD 0x10 0 :=
    getD_take_of_lt _ _ _ (by simp [HEADER_BYTES])
  have h17 : (file_bytes.take HEADER_BYTES).getD 0x11 0 = file_bytes.getD 0x11 0 :=
    getD_take_of_lt _ _ _ (by simp [HEADER_BYTES])
  have hbt' : leNat (((file_bytes.take HEADER_BYTES).drop OFFS_BASETIME).take
      BASETIME_BYTES) ≤ DATETIME_MAX_TIMESTAMP := by
    rw [basetime_slice]
    exact hbt
  simp only [parse_header_ex]
  rw [if_neg (by
    push_neg
    refine ⟨?_, ?_⟩
    · simp only [List.length_take, HEADER_BYTES] at *
      omega
    · rw [List.take_take]
      simpa [HEADER_BYTES] using hmagic)]
  rw [if_neg (by
    simp only [TIME_T_MAX, DATETIME_MAX_TIMESTAMP] at hbt' ⊢
    omega)]
  rw [if_neg (by
    simp only [GMTIME_MAX_TIMESTAMP, DATETIME_MAX_TIMESTAMP] at hbt' ⊢
    omega)]
  rw [if_neg (by
    simp only [DATETIME_MAX_TIMESTAMP] at hbt' ⊢
    omega)]
  rw [if_pos (by
    rw [h16, h17]
    tauto)]

/-! ## Session-level lemmas about `main` -/

theorem main_run_of_parse_failure (file_bytes : Bytes) (ref_db : Bytes → Option PortsRef)
    (check_ports : Option (List Int)) (decompress : Bytes → Bytes)
    (h : parse_header file_bytes = some none) :
    main_run file_bytes ref_db check_ports decompress = some (.inl .invalidHeader) := by
  simp only [main_run, h]

theorem main_run_of_parse_crash (file_bytes : Bytes) (ref_db : Bytes → Option PortsRef)
    (check_ports : Option (List Int)) (decompress : Bytes → Bytes)
    (h : parse_header file_bytes = none) :
    main_run file_bytes ref_db check_ports decompress = none := by
  simp only [main_run, h]

theorem main_run_bad_port (file_bytes : Bytes) (ref_db : Bytes → Option PortsRef)
    (l : List Int) (decompress : Bytes → Bytes) (ph : ParsedHeader) (iptprt_ref : PortsRef)
    (hp : parse_header file_bytes = some (some ph))
    (hdb : ref_db ph.sysname = some iptprt_ref)
    (hbad : ∃ cp ∈ l, cp < 0 ∨ (iptprt_ref.length : Int) ≤ cp) :
    main_run file_bytes ref_db (some l) decompress = some (.inl .invalidPortRequest) := by
  obtain ⟨cp, hmem, hcp⟩ := hbad
  have hall : (l.all fun cp => valid_check_port iptprt_ref.length cp) = false := by
    rw [List.all_eq_false]
    refine ⟨cp, hmem, ?_⟩
    simp only [valid_check_port, decide_eq_true_eq, not_and, not_le, Bool.not_eq_true,
      decide_eq_false_iff_not]
    omega
  simp only [main_run, hp, hdb, hall]
  rw [if_neg (by simp)]

/-! ## The claims -/

/-- Claim C1: for every decoded frame's digital bit fields, every port index
and every field (mask, meta) in that port's reference field map (whose
control names are pairwise distinct, as names identify fields), the Button
Resolver includes that field's control-name in the returned list if and only
if `(activeBits &&& mask) = mask`, where `activeBits` is the active digital
bit field for that port. -/
theorem C1_resolver_mask_covered (ports_ref : PortsRef)
    (button_inputs_def button_inputs_digital : List Nat) (port_idx : Nat)
    (port_name : String) (fields : PortFields)
    (hp : ports_ref.get? port_idx = some (port_name, fields))
    (hnd : (fields.map (fun mf => mf.2.type)).Nodup)
    (mask : Nat) (meta : FieldMeta) (hmem : (mask, meta) ∈ fields) :
    meta.type
        ∈ check_digital_inputs ports_ref button_inputs_def button_inputs_digital port_idx
      ↔ button_inputs_digital.getD port_idx 0 &&& mask = mask :=
  check_digital_inputs_mem_iff ports_ref button_inputs_def button_inputs_digital port_idx
    port_name fields hp hnd mask meta hmem

theorem C1_resolver_mask_covered_witness :
    ("BTN1" ∈ check_digital_inputs refMask5 [0] [7] 0)
      ∧ ¬ ("BTN1" ∈ check_digital_inputs refMask5 [0] [4] 0) := by
  constructor
  · exact (C1_resolver_mask_covered refMask5 [0] [7] 0 ":IN0"
      [(5, ⟨false, "BTN1", 0, none, none⟩)] rfl (by decide) 5
      ⟨false, "BTN1", 0, none, none⟩ (by decide)).mpr (by decide)
  · intro hmem
    exact absurd ((C1_resolver_mask_covered refMask5 [0] [4] 0 ":IN0"
      [(5, ⟨false, "BTN1", 0, none, none⟩)] rfl (by decide) 5
      ⟨false, "BTN1", 0, none, none⟩ (by decide)).mp hmem) (by decide)

/-- Claim C2 is false of the code: `check_digital_inputs` never consults the
`analog` flag, so an analog field whose mask is covered by the active bits —
in particular a zero-mask analog field, always — has its control-name
included. Here the single analog field of `refAnalog0` (mask 0) is reported
active. -/
theorem C2_analog_never_included_counterexample :
    refAnalog0.get? 0 = some (":IN0", [(0, ⟨true, "PADDLE", 0, none, none⟩)])
      ∧ (FieldMeta.mk true "PADDLE" 0 none none).analog = true
      ∧ "PADDLE" ∈ check_digital_inputs refAnalog0 [0] [0] 0 := by
  refine ⟨rfl, rfl, ?_⟩
  decide

/-- Claim C2, amended: the Button Resolver treats analog fields exactly like
digital ones — a field whose metadata has the analog flag true has its
control-name included if and only if `(activeBits &&& mask) = mask`; in
particular a zero-mask analog field is always included. -/
theorem C2_analog_included_iff_covered (ports_ref : PortsRef)
    (button_inputs_def button_inputs_digital : List Nat) (port_idx : Nat)
    (port_name : String) (fields : PortFields)
    (hp : ports_ref.get? port_idx = some (port_name, fields))
    (hnd : (fields.map (fun mf => mf.2.type)).Nodup)
    (mask : Nat) (meta : FieldMeta) (hmem : (mask, meta) ∈ fields)
    (_hanalog : meta.analog = true) :
    meta.type
        ∈ check_digital_inputs ports_ref button_inputs_def button_inputs_digital port_idx
      ↔ button_inputs_digital.getD port_idx 0 &&& mask = mask :=
  check_digital_inputs_mem_iff ports_ref button_inputs_def button_inputs_digital port_idx
    port_name fields hp hnd mask meta hmem

theorem C2_analog_included_iff_covered_witness :
    "PADDLE" ∈ check_digital_inputs refAnalog0 [0] [0] 0 :=
  (C2_analog_included_iff_covered refAnalog0 [0] [0] 0 ":IN0"
    [(0, ⟨true, "PADDLE", 0, none, none⟩)] rfl (by decide) 0
    ⟨true, "PADDLE", 0, none, none⟩ (by decide) rfl).mpr (by decide)

/-- Claim C3: the per-frame analog record count is exactly the total number
of fields across all ports whose analog flag is true; the analog reader
consumes exactly that many fixed-size records; and every successful loop
iteration consumes exactly one whole frame record (`frame_total_size`, which
includes `ANALOG_STRUCT_SIZE * analog_fields_count` analog bytes) before
recursing — the count is a constant of the reference data, fixed before the
loop. -/
theorem C3_analog_record_count (ports_ref : PortsRef) :
    analog_fields_count ports_ref
        = (ports_ref.map (fun p => p.2.countP (fun f => f.2.analog))).sum
      ∧ (∀ data : Bytes,
          ANALOG_STRUCT_SIZE * analog_fields_count ports_ref ≤ data.length →
          read_next_frame_analog_inputs data (analog_fields_count ports_ref)
            = some (data.drop (ANALOG_STRUCT_SIZE * analog_fields_count ports_ref)))
      ∧ (∀ (fuel k : Nat) (ptc : List Nat) (data : Bytes),
          frame_total_size ports_ref ≤ data.length →
          iter_frames (fuel + 1) ports_ref ptc k data
            = (decode_frame ports_ref ptc k (data.take (frame_total_size ports_ref))
                  :: (iter_frames fuel ports_ref ptc (k + 1)
                        (data.drop (frame_total_size ports_ref))).1,
               (iter_frames fuel ports_ref ptc (k + 1)
                  (data.drop (frame_total_size ports_ref))).2)) := by
  refine ⟨?_, fun data h => read_next_frame_analog_inputs_some _ _ h,
    fun fuel k ptc data h => iter_frames_step fuel ports_ref ptc k data h⟩
  rw [analog_fields_count, List.sum_eq_foldl, List.foldl_map]

theorem C3_analog_record_count_witness :
    read_next_frame_analog_inputs (List.replicate 13 0) (analog_fields_count refDigAna)
        = some ((List.replicate 13 0).drop
            (ANALOG_STRUCT_SIZE * analog_fields_count refDigAna))
      ∧ iter_frames 1 refDigAna [0] 0 (List.replicate 37 0)
        = (decode_frame refDigAna [0] 0
              ((List.replicate 37 0).take (frame_total_size refDigAna))
              :: (iter_frames 0 refDigAna [0] 1
                    ((List.replicate 37 0).drop (frame_total_size refDigAna))).1,
           (iter_frames 0 refDigAna [0] 1
              ((List.replicate 37 0).drop (frame_total_size refDigAna))).2) :=
  ⟨(C3_analog_record_count refDigAna).2.1 (List.replicate 13 0) (by decide),
   (C3_analog_record_count refDigAna).2.2 0 0 [0] (List.replicate 37 0) (by decide)⟩

/-- Claim C4: a payload of exactly N complete frame records followed by a
tail shorter than the next required record (the frame-metadata record)
decodes to exactly the same N frames as the clean payload — the
already-decoded frames are retained, not discarded — and with a zero-length
tail likewise to exactly N frames, where N = payload length divided by the
frame record size. -/
theorem C4_complete_frames_retained (ports_ref : PortsRef)
    (ports_to_check : Option (List Nat)) (d t : Bytes)
    (hdvd : frame_total_size ports_ref ∣ d.length)
    (ht : t.length < FRAME_STRUCT_SIZE) :
    iter_inp_payload ports_ref (d ++ t) ports_to_check
        = iter_inp_payload ports_ref d ports_to_check
      ∧ (iter_inp_payload ports_ref (d ++ t) ports_to_check).length
          = d.length / frame_total_size ports_ref := by
  have happ := iter_frames_append ports_ref
    (ports_to_check.getD (List.range ports_ref.length)) t ht
    ((d ++ t).length) d 0 hdvd le_rfl
  have hcongr := iter_frames_fuel_congr ports_ref
    (ports_to_check.getD (List.range ports_ref.length))
    ((d ++ t).length) d.length d 0 (by simp) le_rfl
  have hlen := (iter_frames_length_flag ports_ref
    (ports_to_check.getD (List.range ports_ref.length))
    ((d ++ t).length) d 0 (by simp)).1
  constructor
  · show (iter_frames (d ++ t).length ports_ref
        (ports_to_check.getD (List.range ports_ref.length)) 0 (d ++ t)).1
      = (iter_frames d.length ports_ref
        (ports_to_check.getD (List.range ports_ref.length)) 0 d).1
    rw [happ, ← hcongr]
  · show (iter_frames (d ++ t).length ports_ref
        (ports_to_check.getD (List.range ports_ref.length)) 0 (d ++ t)).1.length
      = d.length / frame_total_size ports_ref
    rw [happ]
    exact hlen

theorem C4_complete_frames_retained_witness :
    iter_inp_payload refOnePort (List.replicate 24 0 ++ [5, 5, 5]) none
        = iter_inp_payload refOnePort (List.replicate 24 0) none
      ∧ (iter_inp_payload refOnePort (List.replicate 24 0 ++ [5, 5, 5]) none).length
          = (List.replicate 24 0).length / frame_total_size refOnePort :=
  C4_complete_frames_retained refOnePort none (List.replicate 24 0) [5, 5, 5]
    (by decide) (by decide)

/-- Claim C5 is false of the code: `iter_inp_payload` returns only the frame
list, so the value the caller receives does not distinguish clean
end-of-stream from truncation. The empty payload ends cleanly and the
1-byte payload is truncated (the `struct.error` diagnostic fires, second
component of `iter_inp_payload_t`), yet the returned values are equal. -/
theorem C5_termination_reason_counterexample :
    iter_inp_payload refOnePort [] none = iter_inp_payload refOnePort [0] none
      ∧ (iter_inp_payload_t refOnePort [] none).2 = false
      ∧ (iter_inp_payload_t refOnePort [0] none).2 = true := by
  refine ⟨rfl, rfl, rfl⟩

/-- Claim C5, amended: the decoder's return value is only the frame
sequence; the clean-end/truncated distinction is surfaced solely as the
stderr diagnostic emitted during decoding (the second component of
`iter_inp_payload_t`), which fires exactly when the payload length is not a
whole number of frame records. -/
theorem C5_truncation_on_stderr_only (ports_ref : PortsRef) (inp_data : Bytes)
    (ports_to_check : Option (List Nat)) :
    iter_inp_payload ports_ref inp_data ports_to_check
        = (iter_inp_payload_t ports_ref inp_data ports_to_check).1
      ∧ (iter_inp_payload_t ports_ref inp_data ports_to_check).2
        = decide (inp_data.length % frame_total_size ports_ref ≠ 0) :=
  ⟨rfl, (iter_frames_length_flag ports_ref
    (ports_to_check.getD (List.range ports_ref.length)) inp_data.length inp_data 0
    le_rfl).2⟩

/-- Claim C6 counterexample: a 64-byte header with correct signature and
unsupported version pair (2, 0) whose base-time field encodes 2^56 does not
fail with the version cause: `datetime.utcfromtimestamp` raises `OSError`
first (caught at the `except` clause, so `parse_header` returns None with
the generic could-not-parse message) and the version check is never
reached. -/
theorem C6_version_unreached_counterexample :
    parse_header_ex (MAGIC ++ [0, 0, 0, 0, 0, 0, 0, 1] ++ [2, 0] ++ List.replicate 46 0)
        = .error .basetimeOsError
      ∧ parse_header_ex (MAGIC ++ [0, 0, 0, 0, 0, 0, 0, 1] ++ [2, 0]
          ++ List.replicate 46 0)
        ≠ .error .invalidVersion
      ∧ parse_header (MAGIC ++ [0, 0, 0, 0, 0, 0, 0, 1] ++ [2, 0]
          ++ List.replicate 46 0)
        = some none :=
  ⟨rfl, fun h => HeaderError.noConfusion (Except.error.inj h), rfl⟩

/-- Claim C6, amended: header parsing fails with the `Not a MAME INP file`
cause (spec: `InvalidHeader`) for every input shorter than the fixed header
length and for every input whose first 8 bytes differ from the magic
signature in any single byte; for every 64-byte-or-longer header with
correct signature whose base-time is within `datetime`'s representable
range (so the timestamp diagnostic succeeds) and whose (major, minor) pair
is not (3,0) or (3,5), it fails with the `Invalid version` cause (spec:
`UnsupportedVersion`); and whenever parsing fails — returning None on a
caught error, or crashing on an uncaught basetime error — no frame decoding
is attempted, whatever the reference database, port request, or payload. -/
theorem C6_header_validation :
    (∀ file_bytes : Bytes, file_bytes.length < HEADER_BYTES →
        parse_header_ex file_bytes = .error .notMameInp)
      ∧ (∀ (file_bytes : Bytes) (i : Nat), i < 8 →
          file_bytes.getD i 0 ≠ MAGIC.getD i 0 →
          parse_header_ex file_bytes = .error .notMameInp)
      ∧ (∀ file_bytes : Bytes, HEADER_BYTES ≤ file_bytes.length →
          file_bytes.take 8 = MAGIC →
          leNat ((file_bytes.drop OFFS_BASETIME).take BASETIME_BYTES)
              ≤ DATETIME_MAX_TIMESTAMP →
          ¬ (file_bytes.getD 0x10 0 = 3
              ∧ (file_bytes.getD 0x11 0 = 0 ∨ file_bytes.getD 0x11 0 = 5)) →
          parse_header_ex file_bytes = .error .invalidVersion)
      ∧ (∀ (file_bytes : Bytes) (ref_db : Bytes → Option PortsRef)
            (check_ports : Option (List Int)) (decompress : Bytes → Bytes),
          parse_header file_bytes = some none →
          main_run file_bytes ref_db check_ports decompress
            = some (.inl .invalidHeader))
      ∧ (∀ (file_bytes : Bytes) (ref_db : Bytes → Option PortsRef)
            (check_ports : Option (List Int)) (decompress : Bytes → Bytes),
          parse_header file_bytes = none →
          main_run file_bytes ref_db check_ports decompress = none) :=
  ⟨parse_header_ex_short, parse_header_ex_magic_byte, parse_header_ex_bad_version,
   main_run_of_parse_failure, main_run_of_parse_crash⟩

theorem C6_header_validation_witness :
    parse_header_ex [77] = .error .notMameInp
      ∧ parse_header_ex (List.replicate 64 1) = .error .notMameInp
      ∧ parse_header_ex (MAGIC ++ List.replicate 8 0 ++ [2, 0] ++ List.replicate 46 0)
          = .error .invalidVersion
      ∧ main_run [] (fun _ => none) none (fun payload => payload)
          = some (.inl .invalidHeader)
      ∧ main_run (MAGIC ++ [0, 0, 0, 0, 0, 1, 0, 0] ++ [3, 0] ++ List.replicate 46 0)
            (fun _ => none) none (fun payload => payload)
          = none :=
  ⟨C6_header_validation.1 [77] (by decide),
   C6_header_validation.2.1 (List.replicate 64 1) 0 (by decide) (by decide),
   C6_header_validation.2.2.1 (MAGIC ++ List.replicate 8 0 ++ [2, 0]
      ++ List.replicate 46 0) (by decide) (by decide) (by decide) (by decide),
   C6_header_validation.2.2.2.1 [] (fun _ => none) none (fun payload => payload)
     (by decide),
   C6_header_validation.2.2.2.2 (MAGIC ++ [0, 0, 0, 0, 0, 1, 0, 0] ++ [3, 0]
      ++ List.replicate 46 0) (fun _ => none) none (fun payload => payload)
     (by decide)⟩

/-- Claim C7: in a session whose header parsed and whose machine was found,
any requested port index outside `[0, portCount)` — in particular one equal
to `portCount` — makes the session fail with the invalid-port-request error,
for every possible payload (the validation does not read the payload) and
with no output frames produced. -/
theorem C7_invalid_port_request (file_bytes : Bytes) (ref_db : Bytes → Option PortsRef)
    (l : List Int) (decompress : Bytes → Bytes) (ph : ParsedHeader)
    (iptprt_ref : PortsRef) (hp : parse_header file_bytes = some (some ph))
    (hdb : ref_db ph.sysname = some iptprt_ref)
    (hbad : ∃ cp ∈ l, cp < 0 ∨ (iptprt_ref.length : Int) ≤ cp) :
    main_run file_bytes ref_db (some l) decompress = some (.inl .invalidPortRequest) :=
  main_run_bad_port file_bytes ref_db l decompress ph iptprt_ref hp hdb hbad

theorem C7_invalid_port_request_witness :
    main_run headerW refDbW (some [1]) (fun payload => payload)
      = some (.inl .invalidPortRequest) :=
  C7_invalid_port_request headerW refDbW [1] (fun payload => payload)
    ⟨[112, 97, 99], headerW, [], 3, 0⟩ refOnePort (by decide) (by decide)
    ⟨1, by decide, by decide⟩

/-- Claim C8 counterexample: a header that the claim counts as valid
(supported version pair (3, 0), ASCII NUL-free machine name "pac",
null-padded to 12 bytes) but whose base-time field encodes 2^56 does not
round-trip: `datetime.utcfromtimestamp` raises `OSError`, caught by the
`except` clause, and `parse_header` returns None instead of the parsed
header. -/
theorem C8_roundtrip_counterexample :
    parse_header_ex (encode_header [0, 0, 0, 0, 0, 0, 0, 1] [0, 0] 3 0 [112, 97, 99] []
        ++ [1, 2, 3])
        = .error .basetimeOsError
      ∧ parse_header (encode_header [0, 0, 0, 0, 0, 0, 0, 1] [0, 0] 3 0 [112, 97, 99] []
          ++ [1, 2, 3])
        = some none :=
  ⟨rfl, rfl⟩

theorem C8_machine_identifier_roundtrip_witness :
    parse_header_ex (encode_header [1, 2, 3, 4, 0, 0, 0, 0] [7, 7] 3 5 [112, 97, 99] [77]
        ++ [1, 2, 3])
      = .ok ⟨[112, 97, 99],
             encode_header [1, 2, 3, 4, 0, 0, 0, 0] [7, 7] 3 5 [112, 97, 99] [77],
             [1, 2, 3], 3, 5⟩ :=
  C8_machine_identifier_roundtrip [1, 2, 3, 4, 0, 0, 0, 0] [7, 7] 3 5 [112, 97, 99] [77]
    [1, 2, 3] (by decide) (by decide) (by decide) (by decide) (by decide) (by decide)
    (by decide) (by decide)

/-- Claim C9: the list of control-names the Button Resolver returns follows
the insertion order of the field entries in the port's reference field map —
it is the field map filtered to the covered masks and projected to the
control names, in field-map order, not sorted by numeric mask value. -/
theorem C9_resolver_insertion_order (ports_ref : PortsRef)
    (button_inputs_def button_inputs_digital : List Nat) (port_idx : Nat)
    (port_name : String) (fields : PortFields)
    (hp : ports_ref.get? port_idx = some (port_name, fields)) :
    check_digital_inputs ports_ref button_inputs_def button_inputs_digital port_idx
      = (fields.filter
            (fun mf => decide (button_inputs_digital.getD port_idx 0 &&& mf.1 = mf.1))).map
          (fun mf => mf.2.type) :=
  check_digital_inputs_eq ports_ref button_inputs_def button_inputs_digital port_idx
    port_name fields hp

theorem C9_resolver_insertion_order_witness :
    check_digital_inputs refTwoFields [0] [3] 0 = ["LEFT", "RIGHT"] := by
  rw [C9_resolver_insertion_order refTwoFields [0] [3] 0 ":IN0"
    [(1, ⟨false, "LEFT", 0, none, none⟩), (2, ⟨false, "RIGHT", 0, none, none⟩)] rfl]
  decide

/-- Claim C10: payload decoding is deterministic — equal reference data,
equal payload bytes and equal requested port sets produce equal outputs; the
embedding is a pure function of exactly these three inputs, so the output
depends on nothing else. -/
theorem C10_decode_deterministic (ports_ref₁ ports_ref₂ : PortsRef) (d₁ d₂ : Bytes)
    (p₁ p₂ : Option (List Nat)) (hr : ports_ref₁ = ports_ref₂) (hd : d₁ = d₂)
    (hp : p₁ = p₂) :
    iter_inp_payload ports_ref₁ d₁ p₁ = iter_inp_payload ports_ref₂ d₂ p₂ := by
  rw [hr, hd, hp]

theorem C10_decode_deterministic_witness :
    iter_inp_payload refOnePort [0] none = iter_inp_payload refOnePort [0] none :=
  C10_decode_deterministic refOnePort refOnePort [0] [0] none none rfl rfl rfl

end Inp2json
